import Mathlib

/-!
Verification of the RLBot C++ interface library's transport and dispatch
engine against its specification.  The definitions below are a shallow
embedding of the relevant source functions:

* the framed wire codec (`buildMessage`, `handleRead` from
  `BotManagerImpl.cpp`, `Message::size`/`type` from `Message.cpp`),
* the writer queue (`enqueueMessage`, `requestWriteLocked`, `handleWrite`,
  `waitForWriterIdle`, `terminate`),
* the per-agent context (`BotContext::serviceLoop`, `setGamePacket`,
  `addMatchComm` from `BotContext.cpp`),
* the router (`handleMessage` MatchComm branch) and the spawn algorithm
  (`spawnBots`),
* the Message payload decoder (`Message::flatbuffer`).

Machine bytes are modelled as `Nat` with explicit `% 256`; buffers are
byte lists holding exactly the valid region; fallible operations return
`Option`.
-/

namespace RLBotCpp

/-- Buffer capacity from `Pool.h`: `2 * 65535` bytes, large enough for any
single frame (at most `4 + 65535` bytes). -/
def BUFFER_SIZE : Nat := 2 * 65535

/-- Number of preallocated buffers (`PREALLOCATED_BUFFERS` in
`BotManagerImpl.h`): bound on iov entries per write submission. -/
def PREALLOCATED_BUFFERS : Nat := 32

/-- Frame bytes produced by `BotManagerImpl::buildMessage` for type `t` and
payload `p`: big-endian u16 type, big-endian u16 length, then the payload.
Each header byte is stored through a `uint8`, hence the `% 256`. -/
def encodeFrame (t : Nat) (p : List Nat) : List Nat :=
  [t / 256 % 256, t % 256, p.length / 256 % 256, p.length % 256] ++ p

/-- `BotManagerImpl::buildMessage` (BotManagerImpl.cpp 309-333): a null
builder encodes an empty payload; a payload larger than 65535 bytes is
rejected with a warning and no frame (`return {}`, the invalid Message). -/
def buildMessage (t : Nat) (builder : Option (List Nat)) : Option (List Nat) :=
  let size := match builder with
    | none => 0
    | some p => p.length
  if size > 65535 then none
  else some (encodeFrame t (match builder with | none => [] | some p => p))

/-- `Message::type` (Message.cpp 35-42): big-endian u16 at the message
offset. -/
def msgType (buf : List Nat) (off : Nat) : Nat :=
  buf.getD off 0 * 256 + buf.getD (off + 1) 0

/-- `Message::size` (Message.cpp 44-50): big-endian u16 payload length at
offset + 2. -/
def msgSize (buf : List Nat) (off : Nat) : Nat :=
  buf.getD (off + 2) 0 * 256 + buf.getD (off + 3) 0

/-- `Message::sizeWithHeader` (Message.cpp 52-55). -/
def msgSizeWithHeader (buf : List Nat) (off : Nat) : Nat :=
  msgSize buf off + 4

/-- The while loop of `BotManagerImpl::handleRead` (BotManagerImpl.cpp
749-780): while a complete header is available and the full frame fits in
the valid region, emit a `(type, payload)` message and advance `start`.
Returns the emitted messages and the final `start` offset. -/
def processFrames (buf : List Nat) (start : Nat) : List (Nat × List Nat) × Nat :=
  if h4 : 4 ≤ buf.length - start then
    if hsz : msgSizeWithHeader buf start ≤ buf.length - start then
      let r := processFrames buf (start + msgSizeWithHeader buf start)
      ((msgType buf start, (buf.drop (start + 4)).take (msgSize buf start)) :: r.1, r.2)
    else ([], start)
  else ([], start)
termination_by buf.length - start
decreasing_by
  simp only [msgSizeWithHeader] at *
  omega

/-- Reader-side state of the transport: `buf` holds exactly the valid
bytes `[0, m_inEndOffset)` of the current read buffer, `start` is
`m_inStartOffset`, `emitted` collects the messages handed to
`handleMessage`, and `terminated` records that `terminate ()` ran. -/
structure ReaderState where
  buf : List Nat
  start : Nat
  emitted : List (Nat × List Nat)
  terminated : Bool
deriving Repr, DecidableEq

/-- Reader state right after `run ()`: fresh buffer, both offsets zero. -/
def initialReader : ReaderState :=
  { buf := [], start := 0, emitted := [], terminated := false }

/-- `BotManagerImpl::handleRead` (BotManagerImpl.cpp 727-791) for one read
completion delivering `chunk` (the bytes the kernel wrote at
`[m_inEndOffset, ...)`; a valid completion has `chunk.length` at most
`BUFFER_SIZE - buf.length`).  A zero-byte completion is a peer disconnect
and calls `terminate ()`.  Otherwise the frame loop runs; on exit with a
partial frame whose header is complete (`4 ≤ length - start`) while the
buffer is full, the tail is copied to a fresh buffer; if everything was
consumed the buffer is rotated. -/
def handleRead (st : ReaderState) (chunk : List Nat) : ReaderState :=
  if st.terminated then st
  else if chunk.length = 0 then { st with terminated := true }
  else
    let buf := st.buf ++ chunk
    let r := processFrames buf st.start
    if 4 ≤ buf.length - r.2 ∧ buf.length = BUFFER_SIZE then
      { buf := buf.drop r.2, start := 0, emitted := st.emitted ++ r.1,
        terminated := false }
    else if r.2 = buf.length then
      { buf := [], start := 0, emitted := st.emitted ++ r.1, terminated := false }
    else
      { buf := buf, start := r.2, emitted := st.emitted ++ r.1, terminated := false }

/-- Writer-side state: `queue` is `m_outputQueue` (each element the frame's
span bytes), `iov` is `m_iov` modelled by the lengths of its entries,
`outStart` is `m_outStartOffset`, `writerIdle` is `m_writerIdle`.
`submitCount` counts kernel write submissions (WSASend / io_uring submit)
and `writeEventPosts` counts posted write-queue completions. -/
structure WriterState where
  queue : List (List Nat)
  iov : List Nat
  outStart : Nat
  writerIdle : Bool
  submitCount : Nat
  writeEventPosts : Nat
deriving Repr, DecidableEq

/-- Writer state at construction / after `run ()`: note `m_writerIdle`
is initialized to `false` (BotManagerImpl.h 178). -/
def writerInit : WriterState :=
  { queue := [], iov := [], outStart := 0, writerIdle := false,
    submitCount := 0, writeEventPosts := 0 }

/-- The iov vector built by `requestWriteLocked` (BotManagerImpl.cpp
816-834): one entry per queued message, up to `PREALLOCATED_BUFFERS`
entries; the first entry skips `outStart` already-written bytes. -/
def iovBuild (queue : List (List Nat)) (outStart : Nat) : List Nat :=
  match queue.take PREALLOCATED_BUFFERS with
  | [] => []
  | f :: rest => (f.length - outStart) :: rest.map List.length

/-- `BotManagerImpl::requestWriteLocked` (BotManagerImpl.cpp 804-909): a
no-op while a submission is outstanding (`m_iov` non-empty); otherwise
gathers the queue into `m_iov` and issues one vectored write submission. -/
def requestWriteLocked (st : WriterState) : WriterState :=
  if st.iov = [] then
    let iov := iovBuild st.queue st.outStart
    { st with
      iov := iov
      submitCount := st.submitCount + (if iov = [] then 0 else 1) }
  else st

/-- `BotManagerImpl::requestWrite` (BotManagerImpl.cpp 793-802): runs on a
write-queue completion; returns immediately when the queue is empty. -/
def requestWrite (st : WriterState) : WriterState :=
  if st.queue = [] then st else requestWriteLocked st

/-- The consuming loop of `BotManagerImpl::handleWrite` (BotManagerImpl.cpp
920-942): walk the queue front applying `count` written bytes; returns the
number of fully written frames and the new partial-write offset. -/
def consumeFrames (q : List (List Nat)) (outStart count : Nat) : Nat × Nat :=
  match q with
  | [] => (0, outStart)
  | f :: rest =>
    if count = 0 then (0, outStart)
    else if count < f.length - outStart then (0, outStart + count)
    else
      let r := consumeFrames rest 0 (count - (f.length - outStart))
      (r.1 + 1, r.2)

/-- `BotManagerImpl::handleWrite` (BotManagerImpl.cpp 911-960): erase the
fully written frames from queue and iov; if the queue drained, set
`m_writerIdle` and notify; otherwise issue the next submission. -/
def handleWrite (st : WriterState) (count : Nat) : WriterState :=
  let r := consumeFrames st.queue st.outStart count
  let st' := { st with
               queue := st.queue.drop r.1
               iov := st.iov.drop r.1
               outStart := r.2 }
  if st'.queue = [] then { st' with writerIdle := true }
  else requestWriteLocked st'

/-- The writer part of `BotManagerImpl::enqueueMessage` (BotManagerImpl.cpp
335-392): an invalid message returns immediately; otherwise `m_writerIdle`
is cleared, the message is appended, and either the fast path issues the
submission (queue was empty) or a write-queue completion is posted. -/
def enqueueWriter (st : WriterState) (msg : Option (List Nat)) : WriterState :=
  match msg with
  | none => st
  | some f =>
    let st1 := { st with writerIdle := false, queue := st.queue ++ [f] }
    if st1.queue.length = 1 then requestWriteLocked st1
    else { st1 with writeEventPosts := st1.writeEventPosts + 1 }

/-- `BotManagerImpl::waitForWriterIdle` (BotManagerImpl.cpp 256-261) blocks
on `m_writerIdleCv` while `m_writerIdle` is false, so it returns exactly
when the flag is set. -/
def waitForWriterIdleReturns (st : WriterState) : Prop :=
  st.writerIdle = true

/-- Events applied to the writer state: message enqueue, a write-queue
completion, a write completion with its byte count (only meaningful while a
submission is outstanding), and `terminate` (BotManagerImpl.cpp 263-275),
which sets `m_writerIdle` unconditionally. -/
inductive WriterStep where
  | enq : Option (List Nat) → WriterStep
  | writeQueueEvent : WriterStep
  | writeDone : Nat → WriterStep
  | terminateStep : WriterStep
deriving Repr, DecidableEq

/-- One writer transition.  A write completion can only arrive while a
submission is outstanding, hence the `iov = []` guard. -/
def applyWriterStep (st : WriterState) (s : WriterStep) : WriterState :=
  match s with
  | .enq m => enqueueWriter st m
  | .writeQueueEvent => requestWrite st
  | .writeDone n => if st.iov = [] then st else handleWrite st n
  | .terminateStep => { st with writerIdle := true }

/-- Inter-agent message content as seen by the dispatch code: sender
participant index, sender team, the team-only flag, and an abstract tag
distinguishing payloads. -/
structure MatchComm where
  index : Nat
  team : Nat
  teamOnly : Bool
  content : Nat
deriving Repr, DecidableEq

/-- Abstract per-tick game packet: the size of its player list (the only
field the dispatch code reads) plus a tag distinguishing packets. -/
structure GamePacket where
  playersCount : Nat
  tag : Nat
deriving Repr, DecidableEq

/-- The user agent, opaque to the core: its owned indices and team (set at
construction, `Bot.cpp` 5-8) and its callback behaviour.  The queued-output
getters may each return `none` ("nothing this tick"). -/
structure BotSpec where
  indices : List Nat
  team : Nat
  getOutput : Nat → Nat
  getMatchComms : Option (List MatchComm)
  getRenderMessages : Option (List (Nat × List Nat))
  getDesiredGameState : Option Nat

/-- The two MatchConfiguration feature toggles the context consults:
`enable_rendering () != AlwaysOff` and `enable_state_setting ()`. -/
structure ConfigFlags where
  renderingEnabled : Bool
  stateSettingEnabled : Bool
deriving Repr, DecidableEq

/-- Mutable state of a `BotContext` (BotContext.h): the pending MatchComm
queue `m_matchCommsIn`, the pending `m_gamePacketMessage`, the latest
`m_ballPredictionMessage` (abstract tag), plus a count of `m_cv`
notifications observed. -/
structure BotContextState where
  bot : BotSpec
  cfg : ConfigFlags
  matchCommsIn : List MatchComm
  gamePacket : Option GamePacket
  ballPrediction : Option Nat
  notified : Nat

/-- Calls made by one pass of the context's service loop, in order:
agent callbacks and the frames handed back to the connection. -/
inductive BotEvent where
  | matchCommCall : MatchComm → BotEvent
  | updateCall : GamePacket → Option Nat → BotEvent
  | getOutputCall : Nat → BotEvent
  | sendPlayerInput : Nat → Nat → BotEvent
  | sendMatchComm : MatchComm → BotEvent
  | sendRenderGroup : Nat → BotEvent
  | sendRemoveRenderGroup : Nat → BotEvent
  | sendDesiredGameState : Nat → BotEvent
deriving Repr, DecidableEq

/-- `BotContext::serviceLoop` (BotContext.cpp 76-184): returns the state
after one pass together with the calls made.  With no pending work the
pass is a no-op.  Otherwise: swap out the comm queue, take the game packet
by move, snapshot the ball prediction; deliver each comm to
`m_bot->matchComm`; if a packet was pending, call `update` and then
`getOutput`/`sendInterfacePacket` for each owned index present in the
player list; finally drain the queued outputs, suppressing render traffic
when rendering is disabled and state-setting traffic when state-setting is
disabled, mapping empty render groups to RemoveRenderGroup. -/
def serviceLoop (s : BotContextState) : BotContextState × List BotEvent :=
  if s.matchCommsIn = [] ∧ s.gamePacket = none then (s, [])
  else
    let s' := { s with matchCommsIn := ([] : List MatchComm), gamePacket := none }
    let commEvents := s.matchCommsIn.map BotEvent.matchCommCall
    let packetEvents :=
      match s.gamePacket with
      | none => []
      | some packet =>
        BotEvent.updateCall packet s.ballPrediction ::
          (s.bot.indices.filter (fun i => i < packet.playersCount)).flatMap
            (fun i => [BotEvent.getOutputCall i,
                       BotEvent.sendPlayerInput i (s.bot.getOutput i)])
    let commsOutEvents :=
      match s.bot.getMatchComms with
      | none => []
      | some cs => cs.map BotEvent.sendMatchComm
    let renderEvents :=
      match s.bot.getRenderMessages with
      | none => []
      | some gs =>
        if s.cfg.renderingEnabled then
          gs.map (fun g =>
            if g.2 = [] then BotEvent.sendRemoveRenderGroup g.1
            else BotEvent.sendRenderGroup g.1)
        else []
    let stateEvents :=
      match s.bot.getDesiredGameState with
      | none => []
      | some g =>
        if s.cfg.stateSettingEnabled then [BotEvent.sendDesiredGameState g] else []
    (s', commEvents ++ packetEvents ++ commsOutEvents ++ renderEvents ++ stateEvents)

/-- `BotContext::setGamePacket` (BotContext.cpp 192-206): overwrite the
pending packet under the mutex; notify the condition variable only when
requested. -/
def setGamePacket (s : BotContextState) (p : GamePacket) (notify : Bool) :
    BotContextState :=
  { s with
    gamePacket := some p
    notified := s.notified + (if notify then 1 else 0) }

/-- `BotContext::setBallPrediction` (BotContext.cpp 208-216). -/
def setBallPrediction (s : BotContextState) (bp : Nat) : BotContextState :=
  { s with ballPrediction := some bp }

/-- `BotContext::addMatchComm` (BotContext.cpp 218-243): drop the message
before taking the lock when its sender index is owned by this context's
bot, or when it is team-only and its sender team differs from the bot's
team; otherwise append it and notify when requested. -/
def addMatchComm (s : BotContextState) (c : MatchComm) (notify : Bool) :
    BotContextState :=
  if c.index ∈ s.bot.indices then s
  else if c.teamOnly = true ∧ c.team ≠ s.bot.team then s
  else
    { s with
      matchCommsIn := s.matchCommsIn ++ [c]
      notified := s.notified + (if notify then 1 else 0) }

/-- Manager state for the router and writer: the context list `m_bots`
(front = primary), the writer state, the `m_quit` flag, the events produced
by inline `loopOnce` runs on the service thread, and the number of
BOT_WAKEUP completions posted. -/
structure ManagerState where
  bots : List BotContextState
  writer : WriterState
  quit : Bool
  primaryTrace : List BotEvent
  wakeupEvents : Nat

/-- MessageType::MatchComm enumerator value (Message.h 14-32). -/
def MATCHCOMM_TYPE : Nat := 9

/-- `BotManagerImpl::enqueueMessage` (BotManagerImpl.cpp 335-409): invalid
messages return immediately; otherwise the writer part runs, and a
MatchComm message is additionally fanned out to the local contexts — every
context after the first via `addMatchComm (message, true)`, the first via
`addMatchComm (message, false)` followed by an inline `loopOnce` when the
caller is the service thread, or a BOT_WAKEUP completion otherwise.
`dec` stands for the flatbuffer decode of the frame's MatchComm payload. -/
def enqueueMessage (dec : List Nat → MatchComm) (onServiceThread : Bool)
    (m : ManagerState) (msg : Option (List Nat)) : ManagerState :=
  match msg with
  | none => m
  | some bytes =>
    let m1 := { m with writer := enqueueWriter m.writer (some bytes) }
    if msgType bytes 0 = MATCHCOMM_TYPE then
      match m1.bots with
      | [] => m1
      | fst :: rest =>
        let c := dec bytes
        let rest' := rest.map (fun b => addMatchComm b c true)
        let fst' := addMatchComm fst c false
        if onServiceThread then
          let r := serviceLoop fst'
          { m1 with
            bots := r.1 :: rest'
            primaryTrace := m1.primaryTrace ++ r.2 }
        else
          { m1 with
            bots := fst' :: rest'
            wakeupEvents := m1.wakeupEvents + 1 }
    else m1

/-- The MatchComm branch of `BotManagerImpl::handleMessage`
(BotManagerImpl.cpp 636-653), reached only when `m_bots` is non-empty
(line 600) and the payload verifies; `c` is the decoded comm.  Every
context after the first receives `addMatchComm (message, true)`; then the
first context's `loopOnce` runs inline — note the source never calls
`addMatchComm` on the first context here. -/
def handleMatchCommInbound (m : ManagerState) (c : MatchComm) : ManagerState :=
  match m.bots with
  | [] => m
  | fst :: rest =>
    let rest' := rest.map (fun b => addMatchComm b c true)
    let r := serviceLoop fst
    { m with
      bots := r.1 :: rest'
      primaryTrace := m.primaryTrace ++ r.2 }

/-- Player variety union from the schema; the spawn code in
`BotManager.cpp` checks for the custom-bot alternative, the spawn code in
`BotManagerImpl.cpp` never reads it. -/
inductive Variety where
  | customBot
  | human
  | psyonix
deriving Repr, DecidableEq

/-- One entry of `MatchConfiguration::player_configurations`. -/
structure PlayerConfig where
  spawnId : Nat
  team : Nat
  name : String
  variety : Variety
deriving Repr, DecidableEq

/-- One entry of `ControllableTeamInfo::controllables`. -/
structure ControllableInfo where
  spawnId : Nat
  index : Nat
deriving Repr, DecidableEq

/-- Loadout / InitComplete frames enqueued during spawning. -/
inductive SpawnOut where
  | setLoadout : Nat → SpawnOut
  | initComplete : SpawnOut
deriving Repr, DecidableEq

/-- Accumulator of the `spawnBots` loop: `pending` is the local
`botIndices` set, `bots` the contexts created so far (owned indices and
bot name), `sends` the loadout frames enqueued, `spawnCalls` the number of
`m_spawn` invocations. -/
structure SpawnAcc where
  pending : List Nat
  bots : List (List Nat × String)
  sends : List SpawnOut
  spawnCalls : Nat
deriving Repr, DecidableEq

/-- Initial spawn accumulator. -/
def spawnAccInit : SpawnAcc := { pending := [], bots := [], sends := [], spawnCalls := 0 }

/-- The per-controllable body of `BotManagerImpl::spawnBots`
(BotManagerImpl.cpp 445-499): look up the player configuration by spawn
id; warn and skip when it is missing, when its team differs from this
process's team, or when the index is already in `botIndices`.  Otherwise
record the index; in batch-hivemind mode defer creation, in the default
mode spawn a bot with the accumulated indices, move those indices into a
new context (emptying `botIndices`), and enqueue a SetLoadout frame when
the loadout callback answers. -/
def spawnStep (configs : List PlayerConfig) (team : Nat) (hive : Bool)
    (loadoutFn : Nat → Option Nat) (acc : SpawnAcc) (ci : ControllableInfo) :
    SpawnAcc :=
  match configs.find? (fun cfg => cfg.spawnId = ci.spawnId) with
  | none => acc
  | some player =>
    if player.team ≠ team then acc
    else if ci.index ∈ acc.pending then acc
    else
      let pending := acc.pending ++ [ci.index]
      if hive then { acc with pending := pending }
      else
        { pending := ([] : List Nat)
          bots := acc.bots ++ [(pending, player.name)]
          sends := acc.sends ++
            (match loadoutFn ci.index with
             | none => []
             | some _ => [SpawnOut.setLoadout ci.index])
          spawnCalls := acc.spawnCalls + 1 }

/-- The batch-hivemind epilogue of `spawnBots` (BotManagerImpl.cpp
501-525): spawn exactly one bot owning the accumulated indices, polling
the loadout callback for each; the hivemind name stays empty because the
source's `if (!name.empty ()) name = ...` can never fire. -/
def spawnFinish (hive : Bool) (loadoutFn : Nat → Option Nat) (acc : SpawnAcc) :
    SpawnAcc :=
  if hive then
    { pending := ([] : List Nat)
      bots := acc.bots ++ [(acc.pending, "")]
      sends := acc.sends ++
        acc.pending.flatMap (fun i =>
          match loadoutFn i with
          | none => []
          | some _ => [SpawnOut.setLoadout i])
      spawnCalls := acc.spawnCalls + 1 }
  else acc

/-- The controllable-processing part of `spawnBots` over a whole
ControllableTeamInfo list. -/
def spawnBotsCore (controllables : List ControllableInfo)
    (configs : List PlayerConfig) (team : Nat) (hive : Bool)
    (loadoutFn : Nat → Option Nat) : SpawnAcc :=
  spawnFinish hive loadoutFn
    (controllables.foldl (spawnStep configs team hive loadoutFn) spawnAccInit)

/-- `BotManagerImpl::spawnBots` (BotManagerImpl.cpp 417-538) top level:
nothing happens until all three control-plane messages are cached; then
the existing contexts are cleared, and if `RLBOT_AGENT_ID` is unset or
empty the function returns with no context, no spawn call and no enqueue;
otherwise the controllables are processed and InitComplete is enqueued at
the end.  Returns (contexts, enqueued frames, spawn-call count). -/
def spawnBotsTop (cti : Option (List ControllableInfo × Nat)) (fi : Option Unit)
    (mc : Option (List PlayerConfig)) (agentId : Option String) (hive : Bool)
    (loadoutFn : Nat → Option Nat) (prevBots : List (List Nat × String)) :
    List (List Nat × String) × List SpawnOut × Nat :=
  match cti, fi, mc with
  | some ctiv, some _, some configs =>
    match agentId with
    | none => ([], [], 0)
    | some a =>
      if a = "" then ([], [], 0)
      else
        let acc := spawnBotsCore ctiv.1 configs ctiv.2 hive loadoutFn
        (acc.bots, acc.sends ++ [SpawnOut.initComplete], acc.spawnCalls)
  | _, _, _ => (prevBots, [], 0)

/-- A `Message` view (Message.h 85-90): an optional buffer handle and the
offset of the header inside it. -/
structure MessageView where
  buffer : Option (List Nat)
  offset : Nat
deriving Repr, DecidableEq

/-- Payload bytes of a message: the `size ()` bytes following the 4-byte
header, i.e. `span ().subspan (4)`. -/
def msgPayload (m : MessageView) : List Nat :=
  match m.buffer with
  | none => []
  | some buf => (buf.drop (m.offset + 4)).take (msgSize buf m.offset)

/-- `Message::flatbuffer<T> (verify)` (Message.cpp 63-89): null buffer
gives nullptr; `GetRoot` always yields a pointer into the payload; with
`verify` set, a failed schema verification logs a warning and gives
nullptr.  `verifyFn` stands for the external schema library's
`root->Verify (verifier)` on the payload span. -/
def flatbufferDecode (m : MessageView) (verify : Bool)
    (verifyFn : List Nat → Bool) : Option (List Nat) :=
  match m.buffer with
  | none => none
  | some buf =>
    let root := (buf.drop (m.offset + 4)).take (msgSize buf m.offset)
    if verify = true ∧ verifyFn root = false then none
    else some root

/-! ## Helper lemmas -/

/-- Applying one `(packet, notify)` pair via `setGamePacket`. -/
def stepSetGamePacket (s : BotContextState) (pb : GamePacket × Bool) :
    BotContextState :=
  setGamePacket s pb.1 pb.2

/-- Whether an event is a call to the agent's `update`. -/
def isUpdateCall : BotEvent → Bool
  | .updateCall _ _ => true
  | _ => false

theorem requestWriteLocked_queue (st : WriterState) :
    (requestWriteLocked st).queue = st.queue := by
  unfold requestWriteLocked
  split <;> rfl

theorem requestWriteLocked_writerIdle (st : WriterState) :
    (requestWriteLocked st).writerIdle = st.writerIdle := by
  unfold requestWriteLocked
  split <;> rfl

theorem enqueueWriter_queue (st : WriterState) (f : List Nat) :
    (enqueueWriter st (some f)).queue = st.queue ++ [f] := by
  unfold enqueueWriter
  dsimp only
  split
  · exact requestWriteLocked_queue _
  · rfl

theorem foldl_setGamePacket_fields (ps : List (GamePacket × Bool))
    (s0 : BotContextState) :
    (ps.foldl stepSetGamePacket s0).matchCommsIn = s0.matchCommsIn
    ∧ (ps.foldl stepSetGamePacket s0).ballPrediction = s0.ballPrediction
    ∧ (ps.foldl stepSetGamePacket s0).bot = s0.bot
    ∧ (ps.foldl stepSetGamePacket s0).cfg = s0.cfg := by
  induction ps generalizing s0 with
  | nil => exact ⟨rfl, rfl, rfl, rfl⟩
  | cons pb ps ih => exact ih (stepSetGamePacket s0 pb)

theorem foldl_setGamePacket_last (ps : List (GamePacket × Bool))
    (s0 : BotContextState) (p : GamePacket) (b : Bool) :
    ((ps ++ [(p, b)]).foldl stepSetGamePacket s0).gamePacket = some p := by
  simp [List.foldl_append, stepSetGamePacket, setGamePacket]

theorem filter_update_map_matchComm (l : List MatchComm) :
    (l.map BotEvent.matchCommCall).filter isUpdateCall = [] := by
  induction l with
  | nil => rfl
  | cons a l ih => simp [isUpdateCall, ih]

theorem filter_update_outputs (f : Nat → Nat) (l : List Nat) :
    (l.flatMap (fun i => [BotEvent.getOutputCall i,
        BotEvent.sendPlayerInput i (f i)])).filter isUpdateCall = [] := by
  induction l with
  | nil => rfl
  | cons a l ih => simp [isUpdateCall, ih]

theorem filter_update_map_sendMatchComm (l : List MatchComm) :
    (l.map BotEvent.sendMatchComm).filter isUpdateCall = [] := by
  induction l with
  | nil => rfl
  | cons a l ih => simp [isUpdateCall, ih]

theorem filter_update_render (l : List (Nat × List Nat)) :
    (l.map (fun g => if g.2 = [] then BotEvent.sendRemoveRenderGroup g.1
        else BotEvent.sendRenderGroup g.1)).filter isUpdateCall = [] := by
  induction l with
  | nil => rfl
  | cons a l ih =>
    by_cases h : a.2 = [] <;> simp [h, isUpdateCall, ih]

theorem filter_update_render_ite (b : Bool) (l : List (Nat × List Nat)) :
    ((if b = true then
        l.map (fun g => if g.2 = [] then BotEvent.sendRemoveRenderGroup g.1
          else BotEvent.sendRenderGroup g.1)
      else []).filter isUpdateCall) = [] := by
  cases b
  · rfl
  · simp [filter_update_render]

theorem filter_update_state_ite (b : Bool) (g : Nat) :
    ((if b = true then [BotEvent.sendDesiredGameState g] else []).filter
      isUpdateCall) = [] := by
  cases b
  · rfl
  · simp [isUpdateCall]

theorem serviceLoop_noWork (s : BotContextState) (h1 : s.matchCommsIn = [])
    (h2 : s.gamePacket = none) : serviceLoop s = (s, []) := by
  unfold serviceLoop
  rw [if_pos ⟨h1, h2⟩]

theorem serviceLoop_post (s : BotContextState)
    (h : ¬(s.matchCommsIn = [] ∧ s.gamePacket = none)) :
    (serviceLoop s).1 = { s with matchCommsIn := [], gamePacket := none } := by
  unfold serviceLoop
  rw [if_neg h]

theorem serviceLoop_filter_update (s : BotContextState) (p : GamePacket)
    (hgp : s.gamePacket = some p) :
    (serviceLoop s).2.filter isUpdateCall
      = [BotEvent.updateCall p s.ballPrediction] := by
  unfold serviceLoop
  rw [if_neg (by simp [hgp])]
  simp only [hgp]
  rcases hmc : s.bot.getMatchComms with _ | cs <;>
    rcases hrm : s.bot.getRenderMessages with _ | gs <;>
    rcases hgs : s.bot.getDesiredGameState with _ | g <;>
      simp only [List.filter_append, filter_update_map_matchComm,
        filter_update_outputs, filter_update_map_sendMatchComm,
        filter_update_render_ite, filter_update_state_ite, List.filter_nil,
        List.filter_cons, List.nil_append, List.append_nil] <;>
      simp [isUpdateCall, filter_update_outputs]

/-! ## Claim theorems (first group) -/

/-- Claim C2: GamePacket coalescing.  For any context state and any
non-empty sequence of `setGamePacket` calls delivered before the service
loop next consumes work, the next pass of the service loop makes exactly
one `update` call, and it carries the last packet of the sequence (the
earlier packets are dropped without any `update` call being made for
them); a further pass makes no calls at all. -/
theorem c2_gamePacket_coalescing (s0 : BotContextState)
    (ps : List (GamePacket × Bool)) (p : GamePacket) (b : Bool) :
    (serviceLoop ((ps ++ [(p, b)]).foldl stepSetGamePacket s0)).2.filter isUpdateCall
        = [BotEvent.updateCall p s0.ballPrediction]
    ∧ (serviceLoop (serviceLoop ((ps ++ [(p, b)]).foldl stepSetGamePacket s0)).1).2
        = [] := by
  have hgp := foldl_setGamePacket_last ps s0 p b
  have hbp := (foldl_setGamePacket_fields (ps ++ [(p, b)]) s0).2.1
  constructor
  · rw [serviceLoop_filter_update _ p hgp, hbp]
  · have hpost := serviceLoop_post ((ps ++ [(p, b)]).foldl stepSetGamePacket s0)
      (fun hc => by rw [hc.2] at hgp; exact Option.noConfusion hgp)
    rw [hpost, serviceLoop_noWork _ rfl rfl]

/-- Claim C5: self/team filtering in `addMatchComm`.  The call leaves the
context state completely unchanged (so the agent's `matchComm` is never
invoked with the message) exactly when the sender index is owned by this
context's bot or the message is team-only with a different sender team;
otherwise the message is appended to the inbound queue exactly once. -/
theorem c5_matchComm_filtering (s : BotContextState) (c : MatchComm) (n : Bool) :
    (addMatchComm s c n = s ↔
      (c.index ∈ s.bot.indices ∨ (c.teamOnly = true ∧ c.team ≠ s.bot.team)))
    ∧ (addMatchComm s c n).matchCommsIn =
        (if c.index ∈ s.bot.indices ∨ (c.teamOnly = true ∧ c.team ≠ s.bot.team)
         then s.matchCommsIn else s.matchCommsIn ++ [c]) := by
  unfold addMatchComm
  by_cases h1 : c.index ∈ s.bot.indices
  · simp [h1]
  · by_cases h2 : c.teamOnly = true ∧ c.team ≠ s.bot.team
    · simp [h1, h2]
    · have hd : ¬(c.index ∈ s.bot.indices ∨
          (c.teamOnly = true ∧ c.team ≠ s.bot.team)) := by tauto
      rw [if_neg h1, if_neg h2, if_neg hd]
      refine ⟨⟨fun h => ?_, fun h => absurd h hd⟩, rfl⟩
      have hq := congrArg BotContextState.matchCommsIn h
      simp at hq

/-- Claim C7: oversize guard.  Encoding a payload larger than 65535 bytes
produces no frame (`buildMessage` returns the invalid message) and the
subsequent `enqueueMessage` leaves the writer state untouched, while a
legal-size payload still encodes and is appended to the output queue. -/
theorem c7_oversize_guard (t t2 : Nat) (p p2 : List Nat) (st : WriterState)
    (h : p.length > 65535) (h2 : p2.length ≤ 65535) :
    buildMessage t (some p) = none
    ∧ enqueueWriter st (buildMessage t (some p)) = st
    ∧ (enqueueWriter st (buildMessage t2 (some p2))).queue
        = st.queue ++ [encodeFrame t2 p2] := by
  have hb : buildMessage t (some p) = none := by
    simp [buildMessage, h]
  have hb2 : buildMessage t2 (some p2) = some (encodeFrame t2 p2) := by
    simp [buildMessage]
    omega
  refine ⟨hb, by rw [hb]; rfl, ?_⟩
  · rw [hb2, enqueueWriter_queue]

/-- Claim C9: `Message::flatbuffer` is total, returns null exactly when the
buffer handle is null or verification was requested and failed on the
payload, and otherwise returns the root decoded from the payload bytes
(the message itself is never modified: the embedding is a pure
function of the view). -/
theorem c9_flatbuffer_characterization (m : MessageView) (verify : Bool)
    (verifyFn : List Nat → Bool) :
    (flatbufferDecode m verify verifyFn = none ↔
      (m.buffer = none ∨ (verify = true ∧ verifyFn (msgPayload m) = false)))
    ∧ (flatbufferDecode m verify verifyFn = none ∨
       flatbufferDecode m verify verifyFn = some (msgPayload m)) := by
  unfold flatbufferDecode msgPayload
  rcases hb : m.buffer with _ | buf
  · simp
  · by_cases hv : verify = true ∧
      verifyFn ((buf.drop (m.offset + 4)).take (msgSize buf m.offset)) = false
    · simp [hv]
    · simp [hv]

/-- Claim C10: when `RLBOT_AGENT_ID` is unset or empty, `spawnBots`
returns without creating any context, without calling the spawn factory
and without enqueueing anything (in particular no InitComplete), even
though all three control-plane messages are cached. -/
theorem c10_agent_id_guard (ctiv : List ControllableInfo × Nat)
    (configs : List PlayerConfig) (agentId : Option String) (hive : Bool)
    (loadoutFn : Nat → Option Nat) (prevBots : List (List Nat × String))
    (h : agentId = none ∨ agentId = some "") :
    spawnBotsTop (some ctiv) (some ()) (some configs) agentId hive loadoutFn
      prevBots = ([], [], 0) := by
  rcases h with h | h <;> subst h <;> rfl

/-- Claim C10 witness: concrete cached triptych, unset agent id. -/
theorem c10_agent_id_guard_witness :
    ((none : Option String) = none ∨ (none : Option String) = some "")
    ∧ spawnBotsTop (some ([⟨7, 0⟩], 0)) (some ())
        (some [⟨7, 0, "X", Variety.human⟩]) none false (fun _ => none)
        [([0], "A")] = ([], [], 0) :=
  ⟨Or.inl rfl, c10_agent_id_guard _ _ _ _ _ _ (Or.inl rfl)⟩

/-- Claim C7 witness: a 70000-byte payload is dropped with the writer in
its initial state; a 3-byte payload still goes through. -/
theorem c7_oversize_guard_witness :
    (List.replicate 70000 0).length > 65535
    ∧ ([1, 2, 3] : List Nat).length ≤ 65535
    ∧ (buildMessage 5 (some (List.replicate 70000 0)) = none
       ∧ enqueueWriter writerInit (buildMessage 5 (some (List.replicate 70000 0)))
           = writerInit
       ∧ (enqueueWriter writerInit (buildMessage 5 (some [1, 2, 3]))).queue
           = writerInit.queue ++ [encodeFrame 5 [1, 2, 3]]) :=
  ⟨by simp only [List.length_replicate]; omega, by simp,
    c7_oversize_guard 5 5 (List.replicate 70000 0) [1, 2, 3] writerInit
      (by simp only [List.length_replicate]; omega) (by simp)⟩

/-- Invariant of quit-free writer executions: the idle flag implies a
drained queue with no outstanding submission, and the iov never covers
more entries than the queue holds. -/
def WriterInv (st : WriterState) : Prop :=
  (st.writerIdle = true → st.queue = [] ∧ st.iov = [])
  ∧ st.iov.length ≤ st.queue.length

theorem iovBuild_length_le (q : List (List Nat)) (o : Nat) :
    (iovBuild q o).length ≤ q.length := by
  have htake : (q.take PREALLOCATED_BUFFERS).length ≤ q.length := by
    rw [List.length_take]
    omega
  unfold iovBuild
  rcases h : q.take PREALLOCATED_BUFFERS with _ | ⟨f, rest⟩
  · simp
  · rw [h] at htake
    simpa using htake

theorem requestWriteLocked_inv (st : WriterState) (h : WriterInv st)
    (hq : st.queue ≠ []) : WriterInv (requestWriteLocked st) := by
  unfold requestWriteLocked
  split
  · refine ⟨fun hi => absurd (h.1 hi).1 hq, ?_⟩
    simpa using iovBuild_length_le st.queue st.outStart
  · exact h

theorem applyWriterStep_inv (st : WriterState) (s : WriterStep)
    (hs : s ≠ WriterStep.terminateStep) (h : WriterInv st) :
    WriterInv (applyWriterStep st s) := by
  cases s with
  | terminateStep => exact absurd rfl hs
  | enq msg =>
    cases msg with
    | none => exact h
    | some f =>
      show WriterInv (enqueueWriter st (some f))
      unfold enqueueWriter
      dsimp only
      have hlen : st.iov.length ≤ (st.queue ++ [f]).length := by
        rw [List.length_append]
        exact Nat.le_succ_of_le h.2
      split
      · apply requestWriteLocked_inv
        · exact ⟨fun hi => Bool.noConfusion hi, hlen⟩
        · simp
      · exact ⟨fun hi => Bool.noConfusion hi, hlen⟩
  | writeQueueEvent =>
    show WriterInv (requestWrite st)
    unfold requestWrite
    split
    · exact h
    · exact requestWriteLocked_inv st h (by assumption)
  | writeDone n =>
    show WriterInv (if st.iov = [] then st else handleWrite st n)
    split
    · exact h
    · unfold handleWrite
      dsimp only
      split
      · rename_i hq
        have hqk : st.queue.length ≤ (consumeFrames st.queue st.outStart n).1 := by
          have h0 : (st.queue.drop (consumeFrames st.queue st.outStart n).1).length
              = 0 := by
            rw [hq]
            rfl
          rw [List.length_drop] at h0
          omega
        have hiov : st.iov.drop (consumeFrames st.queue st.outStart n).1 = [] :=
          List.drop_eq_nil_of_le (le_trans h.2 hqk)
        refine ⟨fun _ => ⟨hq, hiov⟩, ?_⟩
        rw [hq, hiov]
        exact Nat.le_refl _
      · rename_i hq
        apply requestWriteLocked_inv
        · refine ⟨fun hi => ?_, ?_⟩
          · rcases h.1 hi with ⟨h1, h2⟩
            rw [h1, h2]
            constructor <;> simp
          · have hlen2 := h.2
            simp only [List.length_drop]
            omega
        · exact hq

theorem foldl_writer_inv (steps : List WriterStep) (st : WriterState)
    (hst : WriterInv st) (h : WriterStep.terminateStep ∉ steps) :
    WriterInv (steps.foldl applyWriterStep st) := by
  induction steps generalizing st with
  | nil => exact hst
  | cons s steps ih =>
    have hs : s ≠ WriterStep.terminateStep := by
      intro e
      exact h (by rw [e]; exact List.mem_cons_self _ _)
    exact ih (applyWriterStep st s) (applyWriterStep_inv st s hs hst)
      (fun hm => h (List.mem_cons_of_mem _ hm))

/-- Claim C3 counterexample: at the initial writer state the output queue
is empty and no submission is in flight, yet `waitForWriterIdle` does not
return, because `m_writerIdle` is initialized to `false`; so the claimed
"returns iff queue empty and nothing in flight" is false as stated. -/
theorem c3_writerIdle_counterexample :
    ¬ (waitForWriterIdleReturns writerInit ↔
        (writerInit.queue = [] ∧ writerInit.iov = [])) := by
  intro h
  have hret := h.mpr ⟨rfl, rfl⟩
  simp [waitForWriterIdleReturns, writerInit] at hret

/-- Claim C3 (amended): `waitForWriterIdle` returns exactly when the
writer-idle flag is set.  In any execution without `terminate`, the flag
being set implies the output queue is empty and no submission is in
flight; the converse fails because the flag starts out false, and
`terminate` sets the flag unconditionally, even with a non-empty queue. -/
theorem c3_writerIdle_amended (steps : List WriterStep)
    (h : WriterStep.terminateStep ∉ steps) :
    ((steps.foldl applyWriterStep writerInit).writerIdle = true →
      (steps.foldl applyWriterStep writerInit).queue = []
      ∧ (steps.foldl applyWriterStep writerInit).iov = [])
    ∧ (∀ st : WriterState,
        (applyWriterStep st WriterStep.terminateStep).writerIdle = true)
    ∧ writerInit.writerIdle = false := by
  have h0 : WriterInv writerInit :=
    ⟨fun hi => Bool.noConfusion hi, Nat.le_refl 0⟩
  exact ⟨(foldl_writer_inv steps writerInit h0 h).1, fun st => rfl, rfl⟩

/-- Claim C3 witness: a single enqueue followed by its full write
completion reaches an idle state with a drained queue. -/
theorem c3_writerIdle_amended_witness :
    WriterStep.terminateStep ∉
      [WriterStep.enq (some (encodeFrame 5 [7])), WriterStep.writeDone 5]
    ∧ ((([WriterStep.enq (some (encodeFrame 5 [7])),
          WriterStep.writeDone 5].foldl applyWriterStep writerInit).writerIdle = true →
        ([WriterStep.enq (some (encodeFrame 5 [7])),
          WriterStep.writeDone 5].foldl applyWriterStep writerInit).queue = []
        ∧ ([WriterStep.enq (some (encodeFrame 5 [7])),
            WriterStep.writeDone 5].foldl applyWriterStep writerInit).iov = [])
      ∧ (∀ st : WriterState,
          (applyWriterStep st WriterStep.terminateStep).writerIdle = true)
      ∧ writerInit.writerIdle = false) :=
  ⟨by decide, c3_writerIdle_amended _ (by decide)⟩

/-- Manager state with quit already requested, used to refute claim C8. -/
def mgrQuit : ManagerState :=
  { bots := [], writer := writerInit, quit := true, primaryTrace := [],
    wakeupEvents := 0 }

/-- A small PlayerInput frame (type 5). -/
def frame5 : List Nat := encodeFrame 5 [1, 2]

/-- Trivial stand-in decoder for non-MatchComm frames. -/
def dec0 : List Nat → MatchComm := fun _ => ⟨0, 0, false, 0⟩

/-- Claim C8 counterexample: with quit already requested, a call to
`enqueueMessage` with a valid message still appends it to the writer
output queue and still issues a write submission — the message is not
dropped, so the claimed draining behaviour is false as stated. -/
theorem c8_draining_counterexample :
    mgrQuit.quit = true
    ∧ (enqueueMessage dec0 false mgrQuit (some frame5)).writer.queue
        ≠ mgrQuit.writer.queue
    ∧ (enqueueMessage dec0 false mgrQuit (some frame5)).writer.submitCount
        ≠ mgrQuit.writer.submitCount := by
  refine ⟨rfl, ?_, ?_⟩ <;> decide

theorem enqueueMessage_writer (dec : List Nat → MatchComm) (ost : Bool)
    (m : ManagerState) (bytes : List Nat) :
    (enqueueMessage dec ost m (some bytes)).writer
      = enqueueWriter m.writer (some bytes) := by
  unfold enqueueMessage
  dsimp only
  by_cases ht : msgType bytes 0 = MATCHCOMM_TYPE
  · rw [if_pos ht]
    rcases hbots : m.bots with _ | ⟨fst, rest⟩
    · simp only [hbots]
    · simp only [hbots]
      cases ost <;> rfl
  · rw [if_neg ht]

theorem enqueueMessage_quit (dec : List Nat → MatchComm) (ost : Bool)
    (m : ManagerState) (bytes : List Nat) :
    (enqueueMessage dec ost m (some bytes)).quit = m.quit := by
  unfold enqueueMessage
  dsimp only
  by_cases ht : msgType bytes 0 = MATCHCOMM_TYPE
  · rw [if_pos ht]
    rcases hbots : m.bots with _ | ⟨fst, rest⟩
    · simp only [hbots]
    · simp only [hbots]
      cases ost <;> rfl
  · rw [if_neg ht]

/-- Claim C8 (amended): `enqueueMessage` performs no transport-state
check: whatever the quit flag, a valid message is appended to the writer
output queue (messages enqueued after quit are discarded only when
`join ()` clears the queue). -/
theorem c8_enqueue_amended (dec : List Nat → MatchComm) (ost : Bool)
    (m : ManagerState) (bytes : List Nat) (b : Bool) :
    (enqueueMessage dec ost { m with quit := b } (some bytes)).writer.queue
      = m.writer.queue ++ [bytes]
    ∧ (enqueueMessage dec ost { m with quit := b } (some bytes)).quit = b := by
  constructor
  · rw [enqueueMessage_writer]
    exact enqueueWriter_queue _ _
  · rw [enqueueMessage_quit]

/-- Rejection condition actually implemented by the per-controllable body
of `BotManagerImpl::spawnBots`: the looked-up configuration (when one
exists) has the wrong team, or the index is already in the currently
accumulated `botIndices`; a missing configuration is also a rejection
(vacuous case). -/
def spawnRejects (configs : List PlayerConfig) (team : Nat)
    (pending : List Nat) (ci : ControllableInfo) : Prop :=
  ∀ p, configs.find? (fun cfg => cfg.spawnId = ci.spawnId) = some p →
    (p.team ≠ team ∨ ci.index ∈ pending)

theorem find?_map_variety (configs : List PlayerConfig) (s : Nat)
    (fvar : PlayerConfig → Variety) :
    (configs.map (fun c => { c with variety := fvar c })).find?
        (fun cfg => cfg.spawnId = s)
      = (configs.find? (fun cfg => cfg.spawnId = s)).map
          (fun c => { c with variety := fvar c }) := by
  induction configs with
  | nil => rfl
  | cons c cs ih =>
    by_cases h : c.spawnId = s <;> simp [List.find?_cons, h, ih]

/-- Configuration with a non-custom-bot variety, matching controllable
`ctrl7`. -/
def cfgHuman : PlayerConfig :=
  { spawnId := 7, team := 0, name := "X", variety := Variety.human }

/-- Controllable referring to `cfgHuman` by spawn id. -/
def ctrl7 : ControllableInfo := { spawnId := 7, index := 0 }

/-- Claim C6 counterexample: a controllable whose matching player
configuration has variety `human` (not "custom bot"), with the right team
and a fresh index, is accepted by `spawnBots` — it produces a participant
context and a spawn call — contradicting the claim that such a
controllable is rejected. -/
theorem c6_variety_counterexample :
    cfgHuman.variety ≠ Variety.customBot
    ∧ spawnStep [cfgHuman] 0 false (fun _ => none) spawnAccInit ctrl7
        = { pending := [], bots := [([0], "X")], sends := [], spawnCalls := 1 }
    ∧ (spawnBotsCore [ctrl7] [cfgHuman] 0 false (fun _ => none)).bots
        = [([0], "X")] := by
  refine ⟨by decide, rfl, rfl⟩

/-- Claim C6 (amended): a controllable is rejected with a warning exactly
when its player configuration is missing, its team differs from this
process's team, or its index duplicates one in the currently accumulated
index set (which, in the default mode, is moved into each newly created
context and therefore emptied); the configuration's variety is never
examined — the spawn outcome is invariant under arbitrary changes of every
player's variety.  Every non-rejected controllable makes progress
(changes the accumulator): it produces a participant. -/
theorem c6_spawn_amended (configs : List PlayerConfig) (team : Nat)
    (hive : Bool) (loadoutFn : Nat → Option Nat) (acc : SpawnAcc)
    (ci : ControllableInfo) (fvar : PlayerConfig → Variety) :
    (spawnStep configs team hive loadoutFn acc ci = acc ↔
      spawnRejects configs team acc.pending ci)
    ∧ spawnStep (configs.map (fun c => { c with variety := fvar c })) team hive
        loadoutFn acc ci = spawnStep configs team hive loadoutFn acc ci := by
  constructor
  · unfold spawnStep spawnRejects
    rcases hf : configs.find? (fun cfg => cfg.spawnId = ci.spawnId) with _ | p
    · rw [hf]
      simp
    · rw [hf]
      simp only [Option.some.injEq]
      by_cases ht : p.team ≠ team
      · rw [if_pos ht]
        simp only [true_iff]
        intro q hq
        rw [← hq]
        exact Or.inl ht
      · by_cases hi : ci.index ∈ acc.pending
        · rw [if_neg ht, if_pos hi]
          simp only [true_iff]
          intro q hq
          rw [← hq]
          exact Or.inr hi
        · rw [if_neg ht, if_neg hi]
          constructor
          · intro h
            cases hive with
            | true =>
              rw [if_pos rfl] at h
              have hp := congrArg SpawnAcc.pending h
              simp at hp
            | false =>
              rw [if_neg Bool.false_ne_true] at h
              have hp := congrArg SpawnAcc.bots h
              simp at hp
          · intro h
            rcases h p rfl with h | h
            · exact absurd h ht
            · exact absurd h hi
  · unfold spawnStep
    rw [find?_map_variety]
    rcases hf : configs.find? (fun cfg => cfg.spawnId = ci.spawnId) with _ | p <;>
      rw [hf] <;> rfl

/-- Two-context manager used to exercise the inbound MatchComm fan-out:
the primary context A owns index 0, context B owns index 1, both on
team 0. -/
def botA : BotSpec :=
  { indices := [0], team := 0, getOutput := fun _ => 0, getMatchComms := none,
    getRenderMessages := none, getDesiredGameState := none }

/-- Non-primary bot owning index 1. -/
def botB : BotSpec :=
  { indices := [1], team := 0, getOutput := fun _ => 0, getMatchComms := none,
    getRenderMessages := none, getDesiredGameState := none }

/-- Primary context state around `botA`, with no pending work. -/
def ctxA : BotContextState :=
  { bot := botA, cfg := { renderingEnabled := true, stateSettingEnabled := true },
    matchCommsIn := [], gamePacket := none, ballPrediction := none, notified := 0 }

/-- Non-primary context state around `botB`, with no pending work. -/
def ctxB : BotContextState :=
  { bot := botB, cfg := { renderingEnabled := true, stateSettingEnabled := true },
    matchCommsIn := [], gamePacket := none, ballPrediction := none, notified := 0 }

/-- An inbound MatchComm from a participant (index 5, team 0) owned by
neither context, not team-only: the self/team filter drops it nowhere. -/
def commX : MatchComm := { index := 5, team := 0, teamOnly := false, content := 42 }

/-- Manager holding the two contexts. -/
def mgrTwo : ManagerState :=
  { bots := [ctxA, ctxB], writer := writerInit, quit := false,
    primaryTrace := [], wakeupEvents := 0 }

/-- Claim C4: evaluation of the inbound MatchComm fan-out at a concrete
input.  Although the primary context would accept the message (first
conjunct: `addMatchComm` on it is not a self/team drop), `handleMessage`
appends the message only to the non-primary context's queue (with one
notification) and merely runs the primary's loop, which finds no work and
makes no calls: the primary context never receives the inbound comm. -/
theorem c4_inbound_matchComm_primary_skipped :
    addMatchComm ctxA commX false ≠ ctxA
    ∧ (handleMatchCommInbound mgrTwo commX).bots.map
        (fun b => b.matchCommsIn) = [[], [commX]]
    ∧ (handleMatchCommInbound mgrTwo commX).primaryTrace = []
    ∧ (handleMatchCommInbound mgrTwo commX).bots.map
        (fun b => b.notified) = [0, 1] := by
  refine ⟨?_, rfl, rfl, rfl⟩
  intro h
  have hq := congrArg BotContextState.matchCommsIn h
  simp [addMatchComm, ctxA, botA, commX] at hq

theorem getD_shift (a l : List Nat) (k d : Nat) :
    (a ++ l).getD (a.length + k) d = l.getD k d := by
  rw [List.getD_append_right a l d (a.length + k) (Nat.le_add_right _ _),
    Nat.add_sub_cancel_left]

theorem msgType_at (a : List Nat) (t : Nat) (p rest : List Nat)
    (ht : t ≤ 65535) :
    msgType (a ++ (encodeFrame t p ++ rest)) a.length = t := by
  unfold msgType
  have h0 : (a ++ (encodeFrame t p ++ rest)).getD a.length 0
      = (encodeFrame t p ++ rest).getD 0 0 := by
    simpa using getD_shift a (encodeFrame t p ++ rest) 0 0
  have h1 : (a ++ (encodeFrame t p ++ rest)).getD (a.length + 1) 0
      = (encodeFrame t p ++ rest).getD 1 0 := getD_shift a _ 1 0
  rw [h0, h1]
  simp only [encodeFrame, List.cons_append, List.getD_cons_zero,
    List.getD_cons_succ]
  omega

theorem msgSize_at (a : List Nat) (t : Nat) (p rest : List Nat)
    (hp : p.length ≤ 65535) :
    msgSize (a ++ (encodeFrame t p ++ rest)) a.length = p.length := by
  unfold msgSize
  have h2 : (a ++ (encodeFrame t p ++ rest)).getD (a.length + 2) 0
      = (encodeFrame t p ++ rest).getD 2 0 := getD_shift a _ 2 0
  have h3 : (a ++ (encodeFrame t p ++ rest)).getD (a.length + 3) 0
      = (encodeFrame t p ++ rest).getD 3 0 := getD_shift a _ 3 0
  rw [h2, h3]
  simp only [encodeFrame, List.cons_append, List.getD_cons_zero,
    List.getD_cons_succ]
  omega

theorem payload_at (a : List Nat) (t : Nat) (p rest : List Nat) :
    ((a ++ (encodeFrame t p ++ rest)).drop (a.length + 4)).take p.length = p := by
  rw [List.drop_append 4]
  have hd : (encodeFrame t p ++ rest).drop 4 = p ++ rest := by
    simp [encodeFrame]
  rw [hd, List.take_left]

theorem processFrames_stop (buf : List Nat) (start : Nat)
    (h : buf.length - start < 4) : processFrames buf start = ([], start) := by
  unfold processFrames
  rw [dif_neg (by omega)]

theorem processFrames_emit (buf : List Nat) (start : Nat)
    (h4 : 4 ≤ buf.length - start)
    (hsz : msgSizeWithHeader buf start ≤ buf.length - start) :
    processFrames buf start =
      ((msgType buf start,
        (buf.drop (start + 4)).take (msgSize buf start)) ::
          (processFrames buf (start + msgSizeWithHeader buf start)).1,
       (processFrames buf (start + msgSizeWithHeader buf start)).2) := by
  conv_lhs => rw [processFrames]
  rw [dif_pos h4, dif_pos hsz]

theorem processFrames_frame (buf a : List Nat) (t : Nat) (p rest : List Nat)
    (hbuf : buf = a ++ (encodeFrame t p ++ rest)) (start : Nat)
    (hstart : start = a.length) (ht : t ≤ 65535) (hp : p.length ≤ 65535) :
    processFrames buf start =
      ((t, p) :: (processFrames buf (start + (p.length + 4))).1,
       (processFrames buf (start + (p.length + 4))).2) := by
  subst hbuf
  subst hstart
  have hbl : (a ++ (encodeFrame t p ++ rest)).length
      = a.length + (p.length + 4) + rest.length := by
    simp only [List.length_append, encodeFrame, List.length_cons,
      List.length_nil]
    omega
  have hsize : msgSize (a ++ (encodeFrame t p ++ rest)) a.length = p.length :=
    msgSize_at a t p rest hp
  have hszh : msgSizeWithHeader (a ++ (encodeFrame t p ++ rest)) a.length
      = p.length + 4 := by
    unfold msgSizeWithHeader
    rw [hsize]
  have h4 : 4 ≤ (a ++ (encodeFrame t p ++ rest)).length - a.length := by omega
  have hsz : msgSizeWithHeader (a ++ (encodeFrame t p ++ rest)) a.length
      ≤ (a ++ (encodeFrame t p ++ rest)).length - a.length := by
    rw [hszh]
    omega
  rw [processFrames_emit _ _ h4 hsz, msgType_at a t p rest ht, hsize,
    payload_at a t p rest, hszh]

/-- First payload of the stuck stream: 65535 bytes, the maximal legal
payload (frame size 65539). -/
def payload1 : List Nat := List.replicate 65535 1

/-- Second payload: 65524 bytes (frame size 65528), chosen so the two
frames together occupy `BUFFER_SIZE - 3` bytes. -/
def payload2 : List Nat := List.replicate 65524 2

/-- The first three bytes of the third frame `encodeFrame 9 []`. -/
def tail3 : List Nat := [0, 9, 0]

/-- A single-read delivery of exactly `BUFFER_SIZE` bytes: two complete
frames followed by three bytes of a third frame's header. -/
def chunkStuck : List Nat :=
  encodeFrame 1 payload1 ++ (encodeFrame 2 payload2 ++ tail3)

theorem length_encodeFrame (t : Nat) (p : List Nat) :
    (encodeFrame t p).length = p.length + 4 := by
  simp [encodeFrame]

theorem payload1_length : payload1.length = 65535 := by
  unfold payload1
  exact List.length_replicate 65535 1

theorem payload2_length : payload2.length = 65524 := by
  unfold payload2
  exact List.length_replicate 65524 2

theorem chunkStuck_length : chunkStuck.length = 131070 := by
  unfold chunkStuck
  rw [List.length_append, List.length_append, length_encodeFrame,
    length_encodeFrame, payload1_length, payload2_length]
  rfl

theorem processFrames_chunkStuck :
    processFrames chunkStuck 0 = ([(1, payload1), (2, payload2)], 131067) := by
  have h1 := processFrames_frame chunkStuck [] 1 payload1
    (encodeFrame 2 payload2 ++ tail3) (List.nil_append _).symm 0 rfl
    (by omega) (Nat.le_of_eq payload1_length)
  have hidx1 : 0 + (payload1.length + 4) = 65539 := by
    rw [payload1_length]
  rw [hidx1] at h1
  have h2 := processFrames_frame chunkStuck (encodeFrame 1 payload1) 2 payload2
    tail3 rfl 65539
    (by rw [length_encodeFrame, payload1_length]) (by omega)
    (by rw [payload2_length]; omega)
  have hidx2 : 65539 + (payload2.length + 4) = 131067 := by
    rw [payload2_length]
  rw [hidx2] at h2
  have h3 : processFrames chunkStuck 131067 = ([], 131067) :=
    processFrames_stop chunkStuck 131067 (by rw [chunkStuck_length]; omega)
  rw [h1, h2, h3]

theorem handleRead_chunkStuck :
    handleRead initialReader chunkStuck =
      { buf := chunkStuck, start := 131067,
        emitted := [(1, payload1), (2, payload2)], terminated := false } := by
  have hterm : ¬ initialReader.terminated = true := by
    intro h
    exact Bool.noConfusion h
  have hlen0 : ¬ chunkStuck.length = 0 := by rw [chunkStuck_length]; omega
  have hbuf : initialReader.buf ++ chunkStuck = chunkStuck := List.nil_append _
  have hstart0 : initialReader.start = 0 := rfl
  unfold handleRead
  rw [if_neg hterm, if_neg hlen0]
  dsimp only
  rw [hbuf, hstart0, processFrames_chunkStuck]
  dsimp only
  rw [if_neg (by rw [chunkStuck_length]; intro hc; omega)]
  rw [if_neg (by rw [chunkStuck_length]; omega)]
  rfl

/-- Claim C1: failing input for the framing round-trip.  The three
payloads (65535, 65524 and 0 bytes, each at most 65535) are encoded with
`buildMessage`'s framing and concatenated; the kernel delivers the first
`BUFFER_SIZE = 131070` bytes in a single read (permitted: the read buffer
is empty beforehand).  The reader emits the first two messages and leaves
a 3-byte partial header at the very end of the full buffer: because the
compaction step only runs when at least 4 pending bytes are available,
no compaction happens, the next read is issued with zero free space, its
0-byte completion is taken as a peer disconnect, and the third message is
never emitted — the stream dies after 2 of 3 messages. -/
theorem c1_framing_roundtrip_fails :
    chunkStuck ++ [0]
      = encodeFrame 1 payload1 ++ (encodeFrame 2 payload2 ++ encodeFrame 9 [])
    ∧ chunkStuck.length = BUFFER_SIZE
    ∧ (handleRead initialReader chunkStuck).emitted = [(1, payload1), (2, payload2)]
    ∧ (handleRead initialReader chunkStuck).terminated = false
    ∧ (handleRead initialReader chunkStuck).buf.length = BUFFER_SIZE
    ∧ (handleRead initialReader chunkStuck).start
        ≠ (handleRead initialReader chunkStuck).buf.length
    ∧ (handleRead (handleRead initialReader chunkStuck) []).terminated = true
    ∧ (handleRead (handleRead initialReader chunkStuck) []).emitted.length = 2 := by
  have hr := handleRead_chunkStuck
  refine ⟨?_, ?_, ?_, ?_, ?_, ?_, ?_, ?_⟩
  · unfold chunkStuck tail3
    rw [List.append_assoc, List.append_assoc]
    rw [show ([0, 9, 0] : List Nat) ++ [0] = encodeFrame 9 [] from rfl]
  · rw [chunkStuck_length]
    rfl
  · rw [hr]
  · rw [hr]
  · rw [hr]
    dsimp only
    rw [chunkStuck_length]
    rfl
  · rw [hr]
    dsimp only
    rw [chunkStuck_length]
    omega
  · rw [hr]
    rfl
  · rw [hr]
    rfl

end RLBotCpp
